import Mathlib

/-!
Verification of the OncoSage drug-response matching and prediction pipeline.

The embedded code is the inference cell of
src/DrugDiscovery/Data PreProcessing/UserInputTesting.ipynb: given a user
dataframe (the submitted sample) and the reference screening dataset, it

  1. filters the reference dataset to the rows whose drug_target,
     target_pathway and feature_name columns equal the corresponding
     entries of row 0 of the user dataframe (pandas equality: a null never
     equals anything);
  2. collects the unique drug_name values of the filtered rows, in first
     encounter order (pandas Series.unique);
  3. fills every null in the five categorical columns with the sentinel
     string "missing" and converts them to strings;
  4. derives the numeric columns as the user-frame columns that are not
     categorical, in the order of the user frame itself;
  5. encodes the categorical columns with the fitted encoder, extracts the
     numeric columns as floats (a null becomes NaN), and horizontally
     stacks categorical-then-numeric into the model input matrix;
  6. takes entry 0 of the model predictions as the reported IC50 effect
     size.

The fitted encoder and regression model are opaque artifacts; they are
parameters here, with their interface taken from the spec design notes
(encode a categorical tuple to a fixed width rational vector; predict one
row to one scalar).  A numeric cell that is absent is modelled as none,
standing for NaN.  The Flask-style predict endpoint that wraps this
pipeline is not among the source files, so the service-level validation
and error surface is modelled from the spec where a claim needs it.
-/

/-- Cell of a dataframe: a string, a number (rationals stand for floats),
or a null (NaN / empty CSV cell). -/
inductive Cell where
  | str (s : String)
  | num (q : ℚ)
  | null
  deriving DecidableEq, Repr

/-- Row of the reference screening dataset (cleaned_data.csv): the three
key columns, the two further categorical descriptors, and the drug name
label.  Numeric assay columns of the reference data play no part in
matching and are omitted. -/
structure ScreeningRecord where
  drug_target : String
  target_pathway : String
  feature_name : String
  tissue_type : String
  screening_set : String
  drug_name : String
  deriving DecidableEq, Repr

/-- User dataframe as parsed from the uploaded CSV: an ordered list of
column names and a list of rows, each row a list of cells positionally
aligned with the columns. -/
structure UserFrame where
  cols : List String
  rows : List (List Cell)
  deriving DecidableEq, Repr

/-- Position of a column name in a column list (first occurrence). -/
def colIdx (cols : List String) (c : String) : Option Nat :=
  match cols with
  | [] => none
  | d :: ds => if d = c then some 0 else (colIdx ds c).map (· + 1)

/-- Cell of the user frame at row index i and column name c; none when
the column or the row does not exist. -/
def UserFrame.cell (u : UserFrame) (i : Nat) (c : String) : Option Cell :=
  match colIdx u.cols c with
  | some j =>
    match u.rows[i]? with
    | some r => r[j]?
    | none => none
  | none => none

/-- Rectangular dataframe: every row has exactly one cell per column. -/
def UserFrame.Rect (u : UserFrame) : Prop :=
  ∀ r ∈ u.rows, r.length = u.cols.length

/-- key_cols of the notebook. -/
def key_cols : List String := ["drug_target", "target_pathway", "feature_name"]

/-- categorical_cols of the notebook. -/
def categorical_cols : List String :=
  ["drug_target", "target_pathway", "feature_name", "tissue_type", "screening_set"]

/-- Key column value of a reference row, by column name. -/
def ScreeningRecord.keyVal (r : ScreeningRecord) (c : String) : String :=
  if c = "drug_target" then r.drug_target
  else if c = "target_pathway" then r.target_pathway
  else r.feature_name

/-- Pandas equality of a user cell against a reference string: true only
when the cell is that very string; a null (NaN) equals nothing. -/
def cellEq (o : Option Cell) (t : String) : Bool :=
  match o with
  | some (Cell.str s) => s = t
  | _ => false

/-- Filter condition of the notebook matching loop: the three key columns
of the reference row all equal the row 0 entries of the user frame. -/
def matchesKeys (u : UserFrame) (r : ScreeningRecord) : Bool :=
  key_cols.all (fun c => cellEq (u.cell 0 c) (r.keyVal c))

/-- matched_rows of the notebook: the reference rows passing the key
filter, in dataset order. -/
def matchedRows (df : List ScreeningRecord) (u : UserFrame) : List ScreeningRecord :=
  df.filter (matchesKeys u)

/-- First-encounter deduplication with an accumulator of already seen
values: the semantics of pandas Series.unique. -/
def dedupFirstAux (seen : List String) : List String → List String
  | [] => []
  | x :: xs => if x ∈ seen then dedupFirstAux seen xs else x :: dedupFirstAux (x :: seen) xs

/-- Unique values of a list, keeping the first occurrence of each value,
in first encounter order (pandas Series.unique). -/
def dedupFirst (l : List String) : List String :=
  dedupFirstAux [] l

/-- matched_drug_names of the notebook: the unique drug_name values of
the matched rows, in first encounter order. -/
def matched_drug_names (df : List ScreeningRecord) (u : UserFrame) : List String :=
  dedupFirst ((matchedRows df u).map ScreeningRecord.drug_name)

/-- Sequence a list of options: some of the list of values when every
entry is present, otherwise none (a pandas KeyError on column selection). -/
def optList {α : Type} : List (Option α) → Option (List α)
  | [] => some []
  | none :: _ => none
  | some a :: os => (optList os).map (fun as => a :: as)

/-- fillna("missing").astype(str) applied to one categorical cell: a null
becomes the sentinel "missing", a string stays itself, a number is
rendered as a string. -/
def fillCell (c : Cell) : String :=
  match c with
  | Cell.str s => s
  | Cell.num q => toString q.num ++ "/" ++ toString q.den
  | Cell.null => "missing"

/-- numeric_cols of the notebook: the user-frame columns that are not
categorical, in the order of the user frame columns themselves. -/
def numeric_cols (u : UserFrame) : List String :=
  u.cols.filter (fun c => ¬ categorical_cols.contains c)

/-- Categorical tuple of row i fed to the encoder: the five categorical
columns selected from the user frame (none models the pandas KeyError
when a categorical column is absent), each cell through fillCell. -/
def assembleRowCat (u : UserFrame) (i : Nat) : Option (List String) :=
  optList (categorical_cols.map (fun c => (u.cell i c).map fillCell))

/-- Numeric sub-vector of row i: the numeric columns in user-frame column
order, as optional rationals; none models NaN (a null cell, or a
non-numeric cell in a numeric column). -/
def assembleRowNum (u : UserFrame) (i : Nat) : List (Option ℚ) :=
  (numeric_cols u).map (fun c =>
    match u.cell i c with
    | some (Cell.num q) => some q
    | _ => none)

/-- One row of the model input matrix X_user: the encoder output on the
categorical tuple, horizontally stacked with the numeric sub-vector
(np.hstack), categorical first. -/
def assembleRow (encoder : List String → List ℚ) (u : UserFrame) (i : Nat) :
    Option (List (Option ℚ)) :=
  (assembleRowCat u i).map (fun cats => ((encoder cats).map some) ++ assembleRowNum u i)

/-- Full model input matrix X_user, one row per user-frame row; none when
assembly of any row fails. -/
def assembledMatrix (encoder : List String → List ℚ) (u : UserFrame) :
    Option (List (List (Option ℚ))) :=
  optList ((List.range u.rows.length).map (assembleRow encoder u))

/-- predicted_ic50 of the notebook: model.predict(X_user)[0].  The model
runs row by row (the spec design-note interface: predict one vector to
one float); entry 0 of the predictions is the reported score.  The result
is none when assembly fails, when there is no row 0, or when the model
itself fails on row 0 (a raise, e.g. on a NaN input). -/
def pipelineScore (encoder : List String → List ℚ)
    (model : List (Option ℚ) → Option ℚ) (u : UserFrame) : Option ℚ :=
  match assembledMatrix encoder u with
  | some m =>
    match (m.map model)[0]? with
    | some p0 => p0
    | none => none
  | none => none

/-- Presence of one key field in row 0 of the user frame: the column
exists and holds a string value. -/
def presentKey (u : UserFrame) (c : String) : Bool :=
  match u.cell 0 c with
  | some (Cell.str _) => true
  | _ => false

/-- Validation of a submitted sample: the frame is non-empty and the
three key categorical fields are present in row 0. -/
def validSample (u : UserFrame) : Bool :=
  ¬ u.rows.isEmpty && key_cols.all (presentKey u)

/-- Error surface of the inference service. -/
inductive PredictError where
  | validation (msg : String)
  | feature (msg : String)
  deriving DecidableEq, Repr

/-- Response of the inference service. -/
structure PredictionResult where
  predicted_ic50_effect_size : ℚ
  matched_drug_names : List String
  deriving DecidableEq, Repr

/-- Modelled from the spec: the predict orchestration of the Inference
Service.  The Flask-style predict endpoint that wraps the notebook
pipeline is not among the source files (only its JavaScript callers are),
so this follows spec section 4.3: validate that the three key categorical
fields are present, otherwise fail with a ValidationError before any
assembly; run the Drug Matcher; run the Feature Assembler and the model
(the notebook pipeline embedded above), turning any assembly or model
failure into a FeatureError; return the score together with the matched
drug names. -/
def predictService (encoder : List String → List ℚ)
    (model : List (Option ℚ) → Option ℚ)
    (df : List ScreeningRecord) (u : UserFrame) :
    Except PredictError PredictionResult :=
  if validSample u then
    match pipelineScore encoder model u with
    | some q => Except.ok ⟨q, matched_drug_names df u⟩
    | none => Except.error (PredictError.feature "feature assembly or model inference failed")
  else
    Except.error (PredictError.validation "missing required key field")

/-- Stateful view of one service call: the call reads the reference
dataset (the notebook copies it before filtering) and hands it back
untouched together with the response. -/
def predictSt (encoder : List String → List ℚ)
    (model : List (Option ℚ) → Option ℚ)
    (df : List ScreeningRecord) (u : UserFrame) :
    Except PredictError PredictionResult × List ScreeningRecord :=
  (predictService encoder model df u, df)

/-- Strict order of first occurrence inside a list: a occurs in l, b
occurs in l, and the first occurrence of a is strictly earlier. -/
def idxLt (l : List String) (a b : String) : Prop :=
  ∃ ia ib, colIdx l a = some ia ∧ colIdx l b = some ib ∧ ia < ib

theorem colIdx_nil (c : String) : colIdx [] c = none := rfl

theorem colIdx_cons (d : String) (ds : List String) (c : String) :
    colIdx (d :: ds) c = if d = c then some 0 else (colIdx ds c).map (· + 1) := rfl

theorem colIdx_isSome_of_mem {l : List String} {a : String} (h : a ∈ l) :
    ∃ i, colIdx l a = some i := by
  induction l with
  | nil => cases h
  | cons d ds ih =>
    by_cases hd : d = a
    · exact ⟨0, by simp [colIdx_cons, hd]⟩
    · rcases List.mem_cons.mp h with h1 | h2
      · exact absurd h1.symm hd
      · rcases ih h2 with ⟨i, hi⟩
        exact ⟨i + 1, by simp [colIdx_cons, hd, hi]⟩

theorem mem_dedupFirstAux {a : String} :
    ∀ (l seen : List String), a ∈ dedupFirstAux seen l ↔ a ∈ l ∧ a ∉ seen := by
  intro l
  induction l with
  | nil => intro seen; simp [dedupFirstAux]
  | cons x xs ih =>
    intro seen
    by_cases hx : x ∈ seen
    · simp only [dedupFirstAux, if_pos hx, ih]
      constructor
      · rintro ⟨ha, hs⟩
        exact ⟨List.mem_cons_of_mem _ ha, hs⟩
      · rintro ⟨ha, hs⟩
        rcases List.mem_cons.mp ha with rfl | ha2
        · exact absurd hx hs
        · exact ⟨ha2, hs⟩
    · simp only [dedupFirstAux, if_neg hx]
      constructor
      · intro h
        rcases List.mem_cons.mp h with rfl | h2
        · exact ⟨List.mem_cons_self _ _, hx⟩
        · rcases (ih (x :: seen)).mp h2 with ⟨ha, hs⟩
          exact ⟨List.mem_cons_of_mem _ ha,
            fun hmem => hs (List.mem_cons_of_mem _ hmem)⟩
      · rintro ⟨ha, hs⟩
        rcases List.mem_cons.mp ha with rfl | ha2
        · exact List.mem_cons_self _ _
        · by_cases hax : a = x
          · subst hax; exact List.mem_cons_self _ _
          · exact List.mem_cons_of_mem _ ((ih (x :: seen)).mpr
              ⟨ha2, fun hmem => by
                rcases List.mem_cons.mp hmem with h | h
                · exact hax h
                · exact hs h⟩)

theorem nodup_dedupFirstAux :
    ∀ (l seen : List String), (dedupFirstAux seen l).Nodup := by
  intro l
  induction l with
  | nil => intro seen; simp [dedupFirstAux]
  | cons x xs ih =>
    intro seen
    by_cases hx : x ∈ seen
    · simpa [dedupFirstAux, if_pos hx] using ih seen
    · simp only [dedupFirstAux, if_neg hx]
      refine List.nodup_cons.mpr ⟨?_, ih (x :: seen)⟩
      intro hmem
      exact ((mem_dedupFirstAux xs (x :: seen)).mp hmem).2 (List.mem_cons_self _ _)

theorem pairwise_idxLt_dedupFirstAux :
    ∀ (l seen : List String), (dedupFirstAux seen l).Pairwise (idxLt l) := by
  intro l
  induction l with
  | nil => intro seen; simp [dedupFirstAux]
  | cons x xs ih =>
    intro seen
    have transfer : ∀ seen2 : List String, x ∈ seen2 →
        (dedupFirstAux seen2 xs).Pairwise (idxLt (x :: xs)) := by
      intro seen2 hx2
      refine List.Pairwise.imp_of_mem ?_ (ih seen2)
      intro a b ha hb hab
      have hamem := (mem_dedupFirstAux xs seen2).mp ha
      have hbmem := (mem_dedupFirstAux xs seen2).mp hb
      have hax : x ≠ a := fun h => hamem.2 (h ▸ hx2)
      have hbx : x ≠ b := fun h => hbmem.2 (h ▸ hx2)
      rcases hab with ⟨ia, ib, hia, hib, hlt⟩
      exact ⟨ia + 1, ib + 1, by simp [colIdx_cons, hax, hia],
        by simp [colIdx_cons, hbx, hib], Nat.succ_lt_succ hlt⟩
    by_cases hx : x ∈ seen
    · simpa [dedupFirstAux, if_pos hx] using transfer seen hx
    · simp only [dedupFirstAux, if_neg hx]
      refine List.pairwise_cons.mpr ⟨?_, transfer (x :: seen) (List.mem_cons_self _ _)⟩
      intro b hb
      have hbmem := (mem_dedupFirstAux xs (x :: seen)).mp hb
      have hbx : x ≠ b := fun h => hbmem.2 (h ▸ List.mem_cons_self _ _)
      rcases colIdx_isSome_of_mem hbmem.1 with ⟨ib, hib⟩
      exact ⟨0, ib + 1, by simp [colIdx_cons], by simp [colIdx_cons, hbx, hib],
        Nat.succ_pos ib⟩

theorem mem_dedupFirst {a : String} {l : List String} :
    a ∈ dedupFirst l ↔ a ∈ l := by
  simp [dedupFirst, mem_dedupFirstAux]

theorem nodup_dedupFirst (l : List String) : (dedupFirst l).Nodup :=
  nodup_dedupFirstAux l []

theorem pairwise_idxLt_dedupFirst (l : List String) :
    (dedupFirst l).Pairwise (idxLt l) :=
  pairwise_idxLt_dedupFirstAux l []

theorem dedupFirst_cons_head (x : String) (xs : List String) :
    dedupFirst (x :: xs) = x :: dedupFirstAux [x] xs := by
  simp [dedupFirst, dedupFirstAux]

theorem matchesKeys_iff {u : UserFrame} {t p f : String}
    (ht : u.cell 0 "drug_target" = some (Cell.str t))
    (hp : u.cell 0 "target_pathway" = some (Cell.str p))
    (hf : u.cell 0 "feature_name" = some (Cell.str f))
    (r : ScreeningRecord) :
    matchesKeys u r = true ↔
      (r.drug_target = t ∧ r.target_pathway = p ∧ r.feature_name = f) := by
  simp only [matchesKeys, key_cols, List.all_cons, List.all_nil, ScreeningRecord.keyVal,
    ht, hp, hf, cellEq, Bool.and_true, Bool.and_eq_true, decide_eq_true_eq]
  constructor
  · rintro ⟨h1, h2, h3⟩
    simp at h1 h2 h3
    exact ⟨h1.symm, h2.symm, h3.symm⟩
  · rintro ⟨h1, h2, h3⟩
    refine ⟨?_, ?_, ?_⟩ <;> simp [h1, h2, h3]

/-- Membership in the matched drug names, characterised by the key
triple of row 0 of the user frame. -/
theorem mem_matched_drug_names {df : List ScreeningRecord} {u : UserFrame} {t p f : String}
    (ht : u.cell 0 "drug_target" = some (Cell.str t))
    (hp : u.cell 0 "target_pathway" = some (Cell.str p))
    (hf : u.cell 0 "feature_name" = some (Cell.str f))
    (x : String) :
    x ∈ matched_drug_names df u ↔
      ∃ r, r ∈ df ∧ r.drug_target = t ∧ r.target_pathway = p ∧
        r.feature_name = f ∧ r.drug_name = x := by
  simp only [matched_drug_names, mem_dedupFirst, List.mem_map, matchedRows, List.mem_filter]
  constructor
  · rintro ⟨r, ⟨hrdf, hrk⟩, hrn⟩
    rcases (matchesKeys_iff ht hp hf r).mp hrk with ⟨h1, h2, h3⟩
    exact ⟨r, hrdf, h1, h2, h3, hrn⟩
  · rintro ⟨r, hrdf, h1, h2, h3, hrn⟩
    exact ⟨r, ⟨hrdf, (matchesKeys_iff ht hp hf r).mpr ⟨h1, h2, h3⟩⟩, hrn⟩

/-- Concrete reference dataset for evaluation: the spec section 8 EGFR
scenario, with one unrelated row and one duplicated drug name. -/
def dfEx : List ScreeningRecord :=
  [⟨"EGFR", "EGFR signaling", "EGFR_mut", "lung", "GDSC1", "Osimertinib"⟩,
   ⟨"EGFR", "EGFR signaling", "EGFR_mut", "lung", "GDSC2", "Afatinib"⟩,
   ⟨"ABL", "ABL signaling", "BCR_ABL", "blood", "GDSC1", "Imatinib"⟩,
   ⟨"EGFR", "EGFR signaling", "EGFR_mut", "colon", "GDSC1", "Osimertinib"⟩]

/-- Trained-order numeric schema, as listed in the spec data model. -/
def trainedNumericCols : List String :=
  ["log_ic50_mean_pos", "log_ic50_mean_neg", "feature_delta_mean_ic50",
   "feature_pos_ic50_var", "feature_neg_ic50_var"]

/-- Concrete submitted sample for evaluation: the spec section 8 EGFR
scenario row, columns in trained order. -/
def uEx : UserFrame :=
  { cols := categorical_cols ++ trainedNumericCols,
    rows := [[Cell.str "EGFR", Cell.str "EGFR signaling", Cell.str "EGFR_mut",
              Cell.str "lung", Cell.str "GDSC1",
              Cell.num (-21), Cell.num 13, Cell.num (-34),
              Cell.num 7, Cell.num 3]] }

/-- C2: for every submitted sample whose three key fields are the strings
t, p, f and every reference dataset, the Drug Matcher returns exactly the
distinct drug_name values of the rows whose drug_target, target_pathway
and feature_name equal t, p, f under exact case-sensitive string
equality — no duplicates, no omissions — ordered by first encounter in
the natural row order of the dataset. -/
theorem drug_matcher_exact_distinct_first_order
    (df : List ScreeningRecord) (u : UserFrame) (t p f : String)
    (ht : u.cell 0 "drug_target" = some (Cell.str t))
    (hp : u.cell 0 "target_pathway" = some (Cell.str p))
    (hf : u.cell 0 "feature_name" = some (Cell.str f)) :
    (matched_drug_names df u).Nodup ∧
    (∀ x, x ∈ matched_drug_names df u ↔
      ∃ r, r ∈ df ∧ r.drug_target = t ∧ r.target_pathway = p ∧
        r.feature_name = f ∧ r.drug_name = x) ∧
    (matched_drug_names df u).Pairwise
      (idxLt ((matchedRows df u).map ScreeningRecord.drug_name)) :=
  ⟨nodup_dedupFirst _,
   fun x => mem_matched_drug_names ht hp hf x,
   pairwise_idxLt_dedupFirst _⟩

/-- Witness for C2 at the concrete EGFR scenario. -/
theorem drug_matcher_exact_distinct_first_order_witness :
    uEx.cell 0 "drug_target" = some (Cell.str "EGFR") ∧
    (matched_drug_names dfEx uEx = ["Osimertinib", "Afatinib"] ∧
      (matched_drug_names dfEx uEx).Nodup) :=
  ⟨by decide, by decide,
   (drug_matcher_exact_distinct_first_order dfEx uEx "EGFR" "EGFR signaling" "EGFR_mut"
     (by decide) (by decide) (by decide)).1⟩

/-- Membership in the matched drug names, characterised directly by the
key filter. -/
theorem mem_matched_drug_names_filter {df : List ScreeningRecord} {u : UserFrame}
    (x : String) :
    x ∈ matched_drug_names df u ↔
      ∃ r, r ∈ df ∧ matchesKeys u r = true ∧ r.drug_name = x := by
  simp only [matched_drug_names, mem_dedupFirst, List.mem_map, matchedRows, List.mem_filter]
  constructor
  · rintro ⟨r, ⟨hrdf, hrk⟩, hrn⟩
    exact ⟨r, hrdf, hrk, hrn⟩
  · rintro ⟨r, hrdf, hrk, hrn⟩
    exact ⟨r, ⟨hrdf, hrk⟩, hrn⟩

/-- Reversed copy of the concrete reference dataset. -/
def dfExRev : List ScreeningRecord := dfEx.reverse

/-- C8: the set of drug names returned by the Drug Matcher is invariant
under any permutation of the reference dataset rows, while the primary
name (head of the returned list) is determined by the dataset row order:
it is the drug name of the first matching row. -/
theorem drug_matcher_perm_set_invariant_primary_first
    (df₁ df₂ : List ScreeningRecord) (u : UserFrame)
    (r : ScreeningRecord) (rest : List ScreeningRecord)
    (hperm : df₁.Perm df₂)
    (hrow : matchedRows df₁ u = r :: rest) :
    (∀ x, x ∈ matched_drug_names df₁ u ↔ x ∈ matched_drug_names df₂ u) ∧
    (matched_drug_names df₁ u).head? = some r.drug_name := by
  constructor
  · intro x
    rw [mem_matched_drug_names_filter x, mem_matched_drug_names_filter x]
    constructor
    · rintro ⟨s, hs, hk, hn⟩
      exact ⟨s, hperm.mem_iff.mp hs, hk, hn⟩
    · rintro ⟨s, hs, hk, hn⟩
      exact ⟨s, hperm.mem_iff.mpr hs, hk, hn⟩
  · rw [matched_drug_names, hrow, List.map_cons, dedupFirst_cons_head]
    rfl

/-- Witness for C8: the reversed dataset matches the same set of names,
and the primary name is the drug name of the first matching row. -/
theorem drug_matcher_perm_set_invariant_primary_first_witness :
    dfEx.Perm dfExRev ∧
    matchedRows dfEx uEx =
      ⟨"EGFR", "EGFR signaling", "EGFR_mut", "lung", "GDSC1", "Osimertinib"⟩ ::
      [⟨"EGFR", "EGFR signaling", "EGFR_mut", "lung", "GDSC2", "Afatinib"⟩,
       ⟨"EGFR", "EGFR signaling", "EGFR_mut", "colon", "GDSC1", "Osimertinib"⟩] ∧
    ("Afatinib" ∈ matched_drug_names dfEx uEx ↔
      "Afatinib" ∈ matched_drug_names dfExRev uEx) ∧
    (matched_drug_names dfEx uEx).head? = some "Osimertinib" := by
  refine ⟨by decide, by decide, ?_, ?_⟩
  · exact (drug_matcher_perm_set_invariant_primary_first dfEx dfExRev uEx
      ⟨"EGFR", "EGFR signaling", "EGFR_mut", "lung", "GDSC1", "Osimertinib"⟩
      [⟨"EGFR", "EGFR signaling", "EGFR_mut", "lung", "GDSC2", "Afatinib"⟩,
       ⟨"EGFR", "EGFR signaling", "EGFR_mut", "colon", "GDSC1", "Osimertinib"⟩]
      (by decide) (by decide)).1 "Afatinib"
  · exact (drug_matcher_perm_set_invariant_primary_first dfEx dfExRev uEx
      ⟨"EGFR", "EGFR signaling", "EGFR_mut", "lung", "GDSC1", "Osimertinib"⟩
      [⟨"EGFR", "EGFR signaling", "EGFR_mut", "lung", "GDSC2", "Afatinib"⟩,
       ⟨"EGFR", "EGFR signaling", "EGFR_mut", "colon", "GDSC1", "Osimertinib"⟩]
      (by decide) (by decide)).2

/-- Concrete encoder stand-in: encodes each of the five categorical
values as its length, so the output width equals the input arity. -/
def encEx (cats : List String) : List ℚ :=
  cats.map (fun s => (s.length : ℚ))

/-- Concrete model stand-in: accepts exactly vectors of width 10 with no
NaN entry, and predicts the constant 1; anything else raises. -/
def mdlEx (v : List (Option ℚ)) : Option ℚ :=
  if v.length = 10 ∧ (optList v).isSome then some 1 else none

/-- C3: for every submitted sample missing one of the three key
categorical fields, predict fails with a ValidationError, and the result
does not depend on the encoder, the model or the reference dataset — so
neither the Encoder nor the Prediction Model is invoked. -/
theorem predict_missing_key_validation_error
    (u : UserFrame) (c : String) (hc : c ∈ key_cols)
    (h : presentKey u c = false) :
    ∀ (encoder : List String → List ℚ) (model : List (Option ℚ) → Option ℚ)
      (df : List ScreeningRecord),
      predictService encoder model df u =
        Except.error (PredictError.validation "missing required key field") := by
  intro encoder model df
  have hall : key_cols.all (presentKey u) = false := by
    rw [List.all_eq_false]
    exact ⟨c, hc, by simp [h]⟩
  simp [predictService, validSample, hall]

/-- Concrete submitted sample with no drug_target column at all. -/
def uMissing : UserFrame :=
  { cols := ["target_pathway", "feature_name"] ++ trainedNumericCols,
    rows := [[Cell.str "EGFR signaling", Cell.str "EGFR_mut",
              Cell.num (-21), Cell.num 13, Cell.num (-34),
              Cell.num 7, Cell.num 3]] }

/-- Witness for C3 at a concrete sample missing drug_target. -/
theorem predict_missing_key_validation_error_witness :
    "drug_target" ∈ key_cols ∧
    presentKey uMissing "drug_target" = false ∧
    predictService encEx mdlEx dfEx uMissing =
      Except.error (PredictError.validation "missing required key field") :=
  ⟨by decide, by decide,
   predict_missing_key_validation_error uMissing "drug_target" (by decide) (by decide)
     encEx mdlEx dfEx⟩

/-- C4: for every submitted sample whose key triple matches zero
reference rows, predict does not fail: whenever the sample validates and
the assembly and model produce a score, the service returns that score
together with an empty drug name list. -/
theorem predict_zero_match_still_scores
    (encoder : List String → List ℚ) (model : List (Option ℚ) → Option ℚ)
    (df : List ScreeningRecord) (u : UserFrame) (q : ℚ)
    (hv : validSample u = true)
    (hm : matchedRows df u = [])
    (hs : pipelineScore encoder model u = some q) :
    predictService encoder model df u = Except.ok ⟨q, []⟩ := by
  have hnames : matched_drug_names df u = [] := by
    rw [matched_drug_names, hm]
    rfl
  simp [predictService, hv, hs, hnames]

/-- Concrete submitted sample whose key triple matches no reference row. -/
def uNoMatch : UserFrame :=
  { cols := categorical_cols ++ trainedNumericCols,
    rows := [[Cell.str "KRAS", Cell.str "RAS signaling", Cell.str "KRAS_mut",
              Cell.str "lung", Cell.str "GDSC1",
              Cell.num (-21), Cell.num 13, Cell.num (-34),
              Cell.num 7, Cell.num 3]] }

/-- Witness for C4 at a concrete unmatched sample. -/
theorem predict_zero_match_still_scores_witness :
    validSample uNoMatch = true ∧
    matchedRows dfEx uNoMatch = [] ∧
    pipelineScore encEx mdlEx uNoMatch = some 1 ∧
    predictService encEx mdlEx dfEx uNoMatch = Except.ok ⟨1, []⟩ :=
  ⟨by decide, by decide, by decide,
   predict_zero_match_still_scores encEx mdlEx dfEx uNoMatch 1
     (by decide) (by decide) (by decide)⟩

theorem optList_eq_some {α : Type} :
    ∀ {os : List (Option α)} {res : List α}, optList os = some res →
      res.length = os.length ∧ ∀ i : Nat, os[i]? = (res[i]?).map some := by
  intro os
  induction os with
  | nil =>
    intro res h
    simp only [optList, Option.some.injEq] at h
    subst h
    simp
  | cons o os ih =>
    intro res h
    cases o with
    | none => simp [optList] at h
    | some a =>
      cases hos : optList os with
      | none => simp [optList, hos] at h
      | some as =>
        simp only [optList, hos, Option.map_some', Option.some.injEq] at h
        subst h
        rcases ih hos with ⟨hlen, hidx⟩
        refine ⟨by simp [hlen], ?_⟩
        intro i
        cases i with
        | zero => simp
        | succ j => simpa using hidx j

/-- C5: whenever the assembler produces a categorical tuple for the
encoder, the tuple has one string per categorical column; a null in a
categorical slot of row 0 comes out as the sentinel "missing" and a
string value comes out unchanged, so the Encoder always receives a string
in every categorical slot. -/
theorem assembler_categorical_sentinel
    (u : UserFrame) (l : List String)
    (h : assembleRowCat u 0 = some l) :
    l.length = 5 ∧
    ∀ i : Nat, ∀ c : String, categorical_cols[i]? = some c →
      (u.cell 0 c = some Cell.null → l[i]? = some "missing") ∧
      (∀ s, u.cell 0 c = some (Cell.str s) → l[i]? = some s) := by
  rcases optList_eq_some h with ⟨hlen, hidx⟩
  constructor
  · rw [hlen, List.length_map]
    rfl
  · intro i c hc
    have hi := hidx i
    rw [List.getElem?_map, hc] at hi
    simp only [Option.map_some'] at hi
    constructor
    · intro hcell
      rw [hcell] at hi
      cases hl : l[i]? with
      | none => rw [hl] at hi; simp at hi
      | some v =>
        rw [hl] at hi
        simp only [Option.map_some', Option.some.injEq, Option.some_inj] at hi
        simp [fillCell] at hi
        rw [← hi]
    · intro s hcell
      rw [hcell] at hi
      cases hl : l[i]? with
      | none => rw [hl] at hi; simp at hi
      | some v =>
        rw [hl] at hi
        simp only [Option.map_some', Option.some.injEq, Option.some_inj] at hi
        simp [fillCell] at hi
        rw [← hi]

/-- Concrete submitted sample with a null tissue_type cell. -/
def uNull : UserFrame :=
  { cols := categorical_cols ++ trainedNumericCols,
    rows := [[Cell.str "EGFR", Cell.str "EGFR signaling", Cell.str "EGFR_mut",
              Cell.null, Cell.str "GDSC1",
              Cell.num (-21), Cell.num 13, Cell.num (-34),
              Cell.num 7, Cell.num 3]] }

/-- Witness for C5: the null tissue_type cell reaches the encoder as the
sentinel string "missing". -/
theorem assembler_categorical_sentinel_witness :
    assembleRowCat uNull 0 =
      some ["EGFR", "EGFR signaling", "EGFR_mut", "missing", "GDSC1"] ∧
    (["EGFR", "EGFR signaling", "EGFR_mut", "missing", "GDSC1"] : List String)[3]? =
      some "missing" :=
  ⟨by decide,
   ((assembler_categorical_sentinel uNull
       ["EGFR", "EGFR signaling", "EGFR_mut", "missing", "GDSC1"]
       (by decide)).2 3 "tissue_type" (by decide)).1 (by decide)⟩

/-- Concrete submitted sample with a null numeric cell
(log_ic50_mean_pos). -/
def uNumNull : UserFrame :=
  { cols := categorical_cols ++ trainedNumericCols,
    rows := [[Cell.str "EGFR", Cell.str "EGFR signaling", Cell.str "EGFR_mut",
              Cell.str "lung", Cell.str "GDSC1",
              Cell.null, Cell.num 13, Cell.num (-34),
              Cell.num 7, Cell.num 3]] }

/-- Counterexample for C6: the assembler does not substitute 0.0 (nor any
other default) for an absent numeric field — the null log_ic50_mean_pos
cell of this sample comes out as the missing marker (NaN), not as 0.0. -/
theorem assembler_numeric_default_counterexample :
    uNumNull.cell 0 "log_ic50_mean_pos" = some Cell.null ∧
    (numeric_cols uNumNull).head? = some "log_ic50_mean_pos" ∧
    (assembleRowNum uNumNull 0).head? = some none ∧
    ¬ ((assembleRowNum uNumNull 0).head? = some (some 0)) := by
  decide

/-- C6 amended: the Feature Assembler substitutes no default for an
absent numeric assay field; a null numeric cell passes through as the
missing marker (NaN) at its own position, and the numeric sub-vector
still has one entry per numeric column (assembly itself does not fail or
truncate). -/
theorem assembler_numeric_nan_passthrough
    (u : UserFrame) (i : Nat) (c : String)
    (hc : (numeric_cols u)[i]? = some c)
    (hcell : u.cell 0 c = some Cell.null) :
    (assembleRowNum u 0)[i]? = some none ∧
    (assembleRowNum u 0).length = (numeric_cols u).length := by
  constructor
  · rw [assembleRowNum, List.getElem?_map, hc]
    simp [hcell]
  · rw [assembleRowNum, List.length_map]

/-- Witness for the amended C6 at the concrete sample with a null
numeric cell. -/
theorem assembler_numeric_nan_passthrough_witness :
    (numeric_cols uNumNull)[0]? = some "log_ic50_mean_pos" ∧
    uNumNull.cell 0 "log_ic50_mean_pos" = some Cell.null ∧
    (assembleRowNum uNumNull 0)[0]? = some none :=
  ⟨by decide, by decide,
   (assembler_numeric_nan_passthrough uNumNull 0 "log_ic50_mean_pos"
     (by decide) (by decide)).1⟩

/-- Modelled from the spec wording, for the refinement comparison of C1:
the numeric sub-vector with the numeric fields taken in the fixed,
known-in-advance trained column order, independent of the column order of
the submitted record itself. -/
def trainedOrderNumRow (u : UserFrame) (i : Nat) : List (Option ℚ) :=
  trainedNumericCols.map (fun c =>
    match u.cell i c with
    | some (Cell.num q) => some q
    | _ => none)

/-- Concrete submitted sample with all expected columns but the numeric
columns listed in reversed order. -/
def uRevNum : UserFrame :=
  { cols := categorical_cols ++ trainedNumericCols.reverse,
    rows := [[Cell.str "EGFR", Cell.str "EGFR signaling", Cell.str "EGFR_mut",
              Cell.str "lung", Cell.str "GDSC1",
              Cell.num 1, Cell.num 2, Cell.num 3, Cell.num 4, Cell.num 5]] }

/-- Counterexample for C1: the numeric sub-vector of the assembled row is
NOT in the fixed trained column order — the code rederives the numeric
column order from the columns of the submitted record, so a record whose
columns come permuted yields a permuted numeric sub-vector. -/
theorem assembler_trained_order_counterexample :
    uRevNum.cols.Perm (categorical_cols ++ trainedNumericCols) ∧
    assembleRowNum uRevNum 0 = [some 1, some 2, some 3, some 4, some 5] ∧
    trainedOrderNumRow uRevNum 0 = [some 5, some 4, some 3, some 2, some 1] ∧
    assembleRowNum uRevNum 0 ≠ trainedOrderNumRow uRevNum 0 := by
  decide

/-- C1 amended: the assembled row vector is the categorical encoding
sub-vector followed by the numeric sub-vector, in that fixed order, but
the numeric fields appear in the order of the columns of the submitted
record itself (with the categorical columns removed) — an order rederived
per request; it coincides with the trained order exactly when the
submitted record lists its numeric columns in the trained order. -/
theorem assembler_concat_order
    (encoder : List String → List ℚ) (u : UserFrame) (cats : List String)
    (h : assembleRowCat u 0 = some cats) :
    assembleRow encoder u 0 = some (((encoder cats).map some) ++ assembleRowNum u 0) ∧
    (numeric_cols u = trainedNumericCols →
      assembleRowNum u 0 = trainedOrderNumRow u 0) := by
  constructor
  · rw [assembleRow, h]
    rfl
  · intro hn
    rw [assembleRowNum, hn, trainedOrderNumRow]

/-- Witness for the amended C1 at the concrete EGFR sample, whose columns
are in trained order. -/
theorem assembler_concat_order_witness :
    assembleRowCat uEx 0 =
      some ["EGFR", "EGFR signaling", "EGFR_mut", "lung", "GDSC1"] ∧
    numeric_cols uEx = trainedNumericCols ∧
    assembleRow encEx uEx 0 =
      some (((encEx ["EGFR", "EGFR signaling", "EGFR_mut", "lung", "GDSC1"]).map some)
        ++ assembleRowNum uEx 0) ∧
    assembleRowNum uEx 0 = trainedOrderNumRow uEx 0 := by
  refine ⟨by decide, by decide, ?_, ?_⟩
  · exact (assembler_concat_order encEx uEx
      ["EGFR", "EGFR signaling", "EGFR_mut", "lung", "GDSC1"] (by decide)).1
  · exact (assembler_concat_order encEx uEx
      ["EGFR", "EGFR signaling", "EGFR_mut", "lung", "GDSC1"] (by decide)).2 (by decide)

theorem validSample_rows_pos {u : UserFrame} (h : validSample u = true) :
    0 < u.rows.length := by
  rw [validSample, Bool.and_eq_true] at h
  rcases h with ⟨h1, -⟩
  cases hr : u.rows with
  | nil => rw [hr] at h1; simp at h1
  | cons r rs => simp

theorem matrix_head_of_valid
    {encoder : List String → List ℚ} {u : UserFrame}
    {m : List (List (Option ℚ))}
    (hM : assembledMatrix encoder u = some m)
    (hpos : 0 < u.rows.length) :
    m[0]? = assembleRow encoder u 0 := by
  rcases optList_eq_some hM with ⟨-, hidx⟩
  have h0 := hidx 0
  rw [List.getElem?_map] at h0
  rw [List.getElem?_range hpos] at h0
  simp only [Option.map_some'] at h0
  cases hrow : assembleRow encoder u 0 with
  | none =>
    rw [hrow] at h0
    cases hm0 : m[0]? with
    | none => rfl
    | some v => rw [hm0] at h0; simp at h0
  | some v =>
    rw [hrow] at h0
    cases hm0 : m[0]? with
    | none => rw [hm0] at h0; simp at h0
    | some v2 =>
      rw [hm0] at h0
      simp only [Option.map_some', Option.some.injEq] at h0
      rw [h0]

/-- C7: the length of the assembled row vector equals the categorical
encoding width plus the number of numeric fields, the same constant for
every sample with the same columns; and when the assembled vector has a
length the model does not accept, the service raises a FeatureError
rather than returning a silently truncated or padded result. -/
theorem assembler_constant_length_feature_error
    (encoder : List String → List ℚ) (model : List (Option ℚ) → Option ℚ)
    (df : List ScreeningRecord) (u : UserFrame) (v : List (Option ℚ)) (w N : Nat)
    (hw : ∀ cats : List String, cats.length = 5 → (encoder cats).length = w)
    (hrow : assembleRow encoder u 0 = some v) :
    v.length = w + (numeric_cols u).length ∧
    ((∀ x : List (Option ℚ), x.length ≠ N → model x = none) →
      validSample u = true → v.length ≠ N →
      predictService encoder model df u =
        Except.error (PredictError.feature "feature assembly or model inference failed")) := by
  rw [assembleRow] at hrow
  rcases Option.map_eq_some'.mp hrow with ⟨cats, hcats, hv⟩
  have hcats5 : cats.length = 5 := by
    rcases optList_eq_some hcats with ⟨hlen, -⟩
    rw [hlen, List.length_map]
    rfl
  constructor
  · rw [← hv, List.length_append, List.length_map, assembleRowNum,
      List.length_map, hw cats hcats5]
  · intro hm hvalid hlen
    have hpos := validSample_rows_pos hvalid
    have hscore : pipelineScore encoder model u = none := by
      cases hM : assembledMatrix encoder u with
      | none => rw [pipelineScore, hM]
      | some mtx =>
        have hm0 : mtx[0]? = some v := by
          rw [matrix_head_of_valid hM hpos, assembleRow, hcats]
          simp [hv]
        have hmv : model v = none := hm v hlen
        simp only [pipelineScore, hM, List.getElem?_map, hm0, Option.map_some', hmv]
    simp [predictService, hvalid, hscore]

/-- Concrete submitted sample missing one trained numeric column: only
four numeric columns are present. -/
def uShort : UserFrame :=
  { cols := categorical_cols ++
      ["log_ic50_mean_pos", "log_ic50_mean_neg", "feature_delta_mean_ic50",
       "feature_pos_ic50_var"],
    rows := [[Cell.str "EGFR", Cell.str "EGFR signaling", Cell.str "EGFR_mut",
              Cell.str "lung", Cell.str "GDSC1",
              Cell.num (-21), Cell.num 13, Cell.num (-34),
              Cell.num 7]] }

/-- Explicit assembled row of the short sample under the concrete
encoder: five categorical length-encodings and four numeric values. -/
def vShort : List (Option ℚ) :=
  [some 4, some 14, some 8, some 4, some 5,
   some (-21), some 13, some (-34), some 7]

/-- Witness for C7 at the short sample: the assembled width is 5 + 4 = 9,
and the width-10 model makes the service produce a FeatureError. -/
theorem assembler_constant_length_feature_error_witness :
    assembleRow encEx uShort 0 = some vShort ∧
    vShort.length = 5 + (numeric_cols uShort).length ∧
    predictService encEx mdlEx dfEx uShort =
      Except.error (PredictError.feature "feature assembly or model inference failed") := by
  have t := assembler_constant_length_feature_error encEx mdlEx dfEx uShort vShort 5 10
    (fun cats h => by simp [encEx, h]) (by decide)
  exact ⟨by decide, t.1, t.2 (fun x hx => by simp [mdlEx, hx]) (by decide) (by decide)⟩

/-- C9: predict is deterministic and side-effect free in the stateful
view — a call hands the reference dataset back unchanged, and a second
call with the same submitted sample against the dataset returned by the
first call produces the identical result and still leaves the original
dataset. -/
theorem predict_pure_idempotent
    (encoder : List String → List ℚ) (model : List (Option ℚ) → Option ℚ)
    (df : List ScreeningRecord) (u : UserFrame) :
    (predictSt encoder model df u).2 = df ∧
    predictSt encoder model ((predictSt encoder model df u).2) u =
      predictSt encoder model df u :=
  ⟨rfl, rfl⟩

theorem optList_eq_none_of_mem {α : Type} :
    ∀ {os : List (Option α)}, none ∈ os → optList os = none := by
  intro os h
  induction os with
  | nil => cases h
  | cons o os ih =>
    cases o with
    | none => rfl
    | some a =>
      rcases List.mem_cons.mp h with h1 | h2
      · exact absurd h1.symm (by simp)
      · rw [optList, ih h2]
        rfl

theorem optList_isSome_of_forall {α : Type} :
    ∀ {os : List (Option α)}, (∀ o ∈ os, o.isSome) → ∃ res, optList os = some res := by
  intro os h
  induction os with
  | nil => exact ⟨[], rfl⟩
  | cons o os ih =>
    cases o with
    | none => simpa using h none (List.mem_cons_self _ _)
    | some a =>
      rcases ih (fun o ho => h o (List.mem_cons_of_mem _ ho)) with ⟨res, hres⟩
      exact ⟨a :: res, by rw [optList, hres]; rfl⟩

theorem colIdx_lt_length :
    ∀ {cols : List String} {c : String} {j : Nat}, colIdx cols c = some j → j < cols.length := by
  intro cols
  induction cols with
  | nil => intro c j h; simp [colIdx] at h
  | cons d ds ih =>
    intro c j h
    rw [colIdx_cons] at h
    by_cases hd : d = c
    · rw [if_pos hd] at h
      cases h
      simp
    · rw [if_neg hd] at h
      cases hj : colIdx ds c with
      | none => rw [hj] at h; simp at h
      | some j2 =>
        rw [hj] at h
        simp only [Option.map_some', Option.some.injEq] at h
        subst h
        exact Nat.succ_lt_succ (ih hj)

theorem cell_isSome_of_rect {u : UserFrame} {i : Nat} {c : String} {j : Nat}
    (hrect : u.Rect) (hi : i < u.rows.length) (hj : colIdx u.cols c = some j) :
    (u.cell i c).isSome := by
  rw [UserFrame.cell, hj]
  rcases List.getElem?_eq_some.mpr ⟨hi, rfl⟩ with hrow
  rw [hrow]
  have hr : u.rows[i] ∈ u.rows := List.getElem_mem hi
  have hlen : u.rows[i].length = u.cols.length := hrect _ hr
  have : j < u.rows[i].length := by rw [hlen]; exact colIdx_lt_length hj
  simp [List.getElem?_eq_some.mpr ⟨this, rfl⟩]

theorem cell_eq_none_of_no_col {u : UserFrame} {i : Nat} {c : String}
    (hc : colIdx u.cols c = none) : u.cell i c = none := by
  rw [UserFrame.cell, hc]

/-- For a rectangular non-empty user frame, the pipeline score is the
model prediction on the assembled row 0 (the other rows neither block
nor change it). -/
theorem pipelineScore_eq_row0
    (encoder : List String → List ℚ) (model : List (Option ℚ) → Option ℚ)
    (u : UserFrame) (hrect : u.Rect) (hpos : 0 < u.rows.length) :
    pipelineScore encoder model u =
      match assembleRow encoder u 0 with
      | some v => model v
      | none => none := by
  by_cases hcols : ∀ c ∈ categorical_cols, (colIdx u.cols c).isSome
  · have hrowOk : ∀ i, i < u.rows.length → ∃ cats, assembleRowCat u i = some cats := by
      intro i hi
      apply optList_isSome_of_forall
      intro o ho
      rcases List.mem_map.mp ho with ⟨c, hc, rfl⟩
      rcases Option.isSome_iff_exists.mp (hcols c hc) with ⟨j, hj⟩
      rcases Option.isSome_iff_exists.mp (cell_isSome_of_rect hrect hi hj) with ⟨cl, hcl⟩
      simp [hcl]
    have hmat : ∃ m, assembledMatrix encoder u = some m := by
      apply optList_isSome_of_forall
      intro o ho
      rcases List.mem_map.mp ho with ⟨i, hi, rfl⟩
      rcases hrowOk i (List.mem_range.mp hi) with ⟨cats, hcats⟩
      simp [assembleRow, hcats]
    rcases hmat with ⟨m, hm⟩
    have hm0 : m[0]? = assembleRow encoder u 0 := matrix_head_of_valid hm hpos
    rcases hrowOk 0 hpos with ⟨cats0, hcats0⟩
    have hrow0 : assembleRow encoder u 0 = some (((encoder cats0).map some) ++ assembleRowNum u 0) := by
      rw [assembleRow, hcats0]
      rfl
    rw [hrow0] at hm0
    simp only [pipelineScore, hm, List.getElem?_map, hm0, Option.map_some', hrow0]
  · push_neg at hcols
    rcases hcols with ⟨c, hc, hnone⟩
    have hj : colIdx u.cols c = none := by
      cases h : colIdx u.cols c with
      | none => rfl
      | some j => rw [h] at hnone; simp at hnone
    have hrowNone : ∀ i : Nat, assembleRow encoder u i = none := by
      intro i
      have : assembleRowCat u i = none := by
        apply optList_eq_none_of_mem
        rcases List.mem_map.mp (List.mem_map_of_mem (fun d => (u.cell i d).map fillCell) hc) with h2
        have : (u.cell i c).map fillCell = none := by
          rw [cell_eq_none_of_no_col hj]
          rfl
        rw [← this]
        exact List.mem_map_of_mem _ hc
      rw [assembleRow, this]
      rfl
    have hmatNone : assembledMatrix encoder u = none := by
      apply optList_eq_none_of_mem
      have h0 : (0 : Nat) ∈ List.range u.rows.length := List.mem_range.mpr hpos
      have := List.mem_map_of_mem (assembleRow encoder u) h0
      rw [hrowNone 0] at this
      exact this
    rw [hrowNone 0]
    simp only [pipelineScore, hmatNone]

theorem cell0_congr {u1 u2 : UserFrame}
    (hcols : u1.cols = u2.cols)
    (hhead : u1.rows.head? = u2.rows.head?) :
    ∀ c, u1.cell 0 c = u2.cell 0 c := by
  intro c
  rw [UserFrame.cell, UserFrame.cell, hcols]
  have h0 : u1.rows[0]? = u2.rows[0]? := by
    rw [← List.head?_eq_getElem?, ← List.head?_eq_getElem?, hhead]
  rw [h0]

theorem rows_ne_nil_congr {u1 u2 : UserFrame}
    (hhead : u1.rows.head? = u2.rows.head?)
    (hne : u1.rows ≠ []) : u2.rows ≠ [] := by
  intro h2
  rw [h2] at hhead
  simp only [List.head?_nil] at hhead
  cases hr : u1.rows with
  | nil => exact hne hr
  | cons r rs => rw [hr] at hhead; simp at hhead

/-- C10: when the submitted upload parses to more than one record, only
row 0 determines the response — two rectangular uploads with the same
columns and the same first row produce the same service result, whatever
their remaining rows. -/
theorem predict_depends_on_row0_only
    (encoder : List String → List ℚ) (model : List (Option ℚ) → Option ℚ)
    (df : List ScreeningRecord) (u1 u2 : UserFrame)
    (h1 : u1.Rect) (h2 : u2.Rect)
    (hcols : u1.cols = u2.cols)
    (hhead : u1.rows.head? = u2.rows.head?)
    (hne : u1.rows ≠ []) :
    predictService encoder model df u1 = predictService encoder model df u2 := by
  have hne2 : u2.rows ≠ [] := rows_ne_nil_congr hhead hne
  have hpos1 : 0 < u1.rows.length := List.length_pos.mpr hne
  have hpos2 : 0 < u2.rows.length := List.length_pos.mpr hne2
  have hcell := cell0_congr hcols hhead
  have hpk : presentKey u1 = presentKey u2 := by
    funext c
    rw [presentKey, presentKey, hcell c]
  have hvalid : validSample u1 = validSample u2 := by
    rw [validSample, validSample, hpk]
    have e1 : u1.rows.isEmpty = false := by simp [hne]
    have e2 : u2.rows.isEmpty = false := by simp [hne2]
    rw [e1, e2]
  have hkeys : matchesKeys u1 = matchesKeys u2 := by
    funext r
    rw [matchesKeys, matchesKeys]
    have hfun : (fun c => cellEq (u1.cell 0 c) (r.keyVal c)) =
        (fun c => cellEq (u2.cell 0 c) (r.keyVal c)) :=
      funext fun c => by rw [hcell c]
    rw [hfun]
  have hnames : matched_drug_names df u1 = matched_drug_names df u2 := by
    rw [matched_drug_names, matched_drug_names, matchedRows, matchedRows, hkeys]
  have hcat : assembleRowCat u1 0 = assembleRowCat u2 0 := by
    rw [assembleRowCat, assembleRowCat]
    congr 1
    apply List.map_congr_left
    intro c _
    rw [hcell c]
  have hnumcols : numeric_cols u1 = numeric_cols u2 := by
    rw [numeric_cols, numeric_cols, hcols]
  have hnum : assembleRowNum u1 0 = assembleRowNum u2 0 := by
    rw [assembleRowNum, assembleRowNum, hnumcols]
    apply List.map_congr_left
    intro c _
    rw [hcell c]
  have hrow : assembleRow encoder u1 0 = assembleRow encoder u2 0 := by
    rw [assembleRow, assembleRow, hcat, hnum]
  have hscore : pipelineScore encoder model u1 = pipelineScore encoder model u2 := by
    rw [pipelineScore_eq_row0 encoder model u1 h1 hpos1,
      pipelineScore_eq_row0 encoder model u2 h2 hpos2, hrow]
  rw [predictService, predictService, hvalid, hscore, hnames]

/-- Concrete two-row upload: row 0 is the EGFR scenario row, row 1 an
unrelated record. -/
def uTwo : UserFrame :=
  { cols := categorical_cols ++ trainedNumericCols,
    rows := [[Cell.str "EGFR", Cell.str "EGFR signaling", Cell.str "EGFR_mut",
              Cell.str "lung", Cell.str "GDSC1",
              Cell.num (-21), Cell.num 13, Cell.num (-34),
              Cell.num 7, Cell.num 3],
             [Cell.str "ABL", Cell.str "ABL signaling", Cell.str "BCR_ABL",
              Cell.str "blood", Cell.str "GDSC1",
              Cell.num 9, Cell.num 8, Cell.num 7,
              Cell.num 6, Cell.num 5]] }

/-- Witness for C10: the one-row upload and the two-row upload sharing
row 0 get the identical service response. -/
theorem predict_depends_on_row0_only_witness :
    uEx.cols = uTwo.cols ∧
    uEx.rows.head? = uTwo.rows.head? ∧
    predictService encEx mdlEx dfEx uEx = predictService encEx mdlEx dfEx uTwo :=
  ⟨by decide, by decide,
   predict_depends_on_row0_only encEx mdlEx dfEx uEx uTwo
     (show ∀ r ∈ uEx.rows, r.length = uEx.cols.length by decide)
     (show ∀ r ∈ uTwo.rows, r.length = uTwo.cols.length by decide)
     (by decide) (by decide) (by decide)⟩
